import Mathlib

/-!
Verification development for the KAZU document-disambiguation core.

The definitions below are a shallow embedding of
`kazu/steps/other/document_disambiguationv2.py` and
`kazu/utils/link_index.py`.  Pure Python functions become Lean functions;
Python floats are modelled as rationals; Python `set` objects are modelled
as lists deduplicated by value (iteration order of a Python set is
unspecified, so a deterministic order is chosen); in-place mutation of
entities is modelled by explicit state passing, with Python object
identity modelled by an `id` field.  External collaborators that are not
part of the two source files (the synonym/metadata registries, the string
normalizer, and the fitted tf-idf vectorizer) are passed in as function
parameters, mirroring how the Python code calls out to them.
-/

namespace Kazu

/-- Confidence ranks of the `LinkRanks` enumeration (`kazu.data.data`):
the ordered set {LOW, MEDIUM, HIGH} used on hits and mappings. -/
inductive LinkRanks where
  | low
  | medium
  | high
deriving DecidableEq

/-- SynonymData (`kazu.data.data`): a synonym string's resolved
identifier-group for one knowledge base.  `ids` is the set of identifiers,
`ids_to_source` maps each identifier to its originating source table
(modelled as an association list), `mapping_type` is the mapping-type tag. -/
structure SynData where
  ids : List String
  ids_to_source : List (String × String)
  mapping_type : String
deriving DecidableEq

/-- Hit (imported by the disambiguation module from `kazu.utils.link_index`):
one retrieval candidate, with a knowledge-base name (`source`), a confidence
rank and a set of SynonymData (modelled as a list). -/
structure Hit where
  source : String
  confidence : LinkRanks
  syn_data : List SynData
deriving DecidableEq

/-- Mapping (`kazu.data.data`): a final accepted resolution, created by
`MetadataDatabase.create_mapping` with the fields passed in
`DisambiguationStrategyList.__call__`. -/
structure Mapping where
  data_origin : String
  source : String
  idx : String
  mapping_type : String
  confidence : LinkRanks
  additional_metadata : List (String × String)
deriving DecidableEq

/-- Entity (`kazu.data.data`): a mention with its matched surface string
(`ent_match`, the Python attribute `match`), class label, hits, and a
growing list of mappings.  The `id` field models Python object identity:
distinct entity objects sharing a mention are distinct values. -/
structure Entity where
  id : Nat
  ent_match : String
  entity_class : String
  hits : List Hit
  mappings : List Mapping
deriving DecidableEq

/-- Document (`kazu.data.data`): sections of raw text plus the entities
that `get_entities` returns.  Only `entities` is read by the disambiguator. -/
structure Document where
  sections : List String
  entities : List Entity
deriving DecidableEq

/-- Codepoint comparison of characters, as Python compares string items. -/
def charLtB (a b : Char) : Bool := a.val < b.val

/-- Lexicographic (codepoint) strict comparison of char lists, the order
Python uses on `str`.  Defined directly so that it evaluates in the kernel. -/
def strLtList : List Char → List Char → Bool
  | [], [] => false
  | [], _ :: _ => true
  | _ :: _, [] => false
  | a :: as, b :: bs =>
    if charLtB a b then true else if charLtB b a then false else strLtList as bs

/-- Python string `<` on the underlying characters. -/
def strLtB (s t : String) : Bool := strLtList s.data t.data

/-- Stable insertion of `x` into a list sorted by `le`: `x` is placed before
the first element it compares `le` to, so equal keys keep their original
relative order, as Python's stable `sorted` does. -/
def insertSorted {α : Type} (le : α → α → Bool) (x : α) : List α → List α
  | [] => [x]
  | y :: ys => if le x y then x :: y :: ys else y :: insertSorted le x ys

/-- Stable sort by the Boolean comparator `le`, modelling Python `sorted`. -/
def sortBy {α : Type} (le : α → α → Bool) : List α → List α
  | [] => []
  | x :: xs => insertSorted le x (sortBy le xs)

/-- Digits as matched by the regex `[0-9]` in `NumberResolver.number_finder`. -/
def isDigitCh (c : Char) : Bool := decide (('0' : Char).val ≤ c.val ∧ c.val ≤ ('9' : Char).val)

/-- Maximal runs of digit characters, as returned by
`re.findall("[0-9]+", s)` in `NumberResolver`. -/
def numberRuns : List Char → List String
  | [] => []
  | c :: cs =>
    let rest := numberRuns cs
    if isDigitCh c then
      match cs with
      | d :: _ =>
        if isDigitCh d then
          match rest with
          | r :: rs => String.mk (c :: r.data) :: rs
          | [] => [String.mk [c]]
        else String.mk [c] :: rest
      | [] => [String.mk [c]]
    else rest

/-- NumberResolver (`document_disambiguationv2.py`): the `Counter` of the
query's numeric tokens is computed at construction, and a candidate is
accepted only if its numeric-token multiset is equal.  Counter equality is
multiset equality. -/
def numberResolver (query_string_norm synonym_string_norm : String) : Bool :=
  decide ((numberRuns query_string_norm.data : Multiset String)
    = (numberRuns synonym_string_norm.data : Multiset String))

/-- Longest-common-subsequence length via the classic dynamic-programming
row recurrence (the algorithm of `strsimpy.LongestCommonSubsequence.length`).
Given the previous row `p0 :: p1 :: ps` and the running value `cur` of the
new row, produces the tail of the new row for character `c` against `bs`. -/
def lcsNextRow (c : Char) : List Char → List Nat → Nat → List Nat
  | b :: bs, p0 :: p1 :: ps, cur =>
    let v := if c = b then p0 + 1 else max cur p1
    v :: lcsNextRow c bs (p1 :: ps) v
  | _, _, _ => []

/-- LCS dynamic-programming table: fold each character of `as` over the row. -/
def lcsFold (bs as : List Char) : List Nat :=
  as.foldl (fun prev c => 0 :: lcsNextRow c bs prev 0) (List.replicate (bs.length + 1) 0)

/-- Length of the longest common subsequence of two strings. -/
def lcsLength (a b : String) : Nat := (lcsFold b.data a.data).getLastD 0

/-- Distance of `strsimpy.LongestCommonSubsequence.distance`:
zero on equal strings, else `len(s0) + len(s1) - 2 * lcs(s0, s1)`.  The
value is a non-negative integer (the LCS length never exceeds either
string's length), so it is modelled as a natural number; strsimpy returns
it as a float with the same value. -/
def strsimpyLcsDistance (s0 s1 : String) : Nat :=
  if s0 = s1 then 0
  else s0.length + s1.length - 2 * lcsLength s0 s1

/-- SubStringResolver (`document_disambiguationv2.py`): stores
`min_distance = 0.7 * len(query)`, and `__call__` computes
`self.lcs.distance(query, candidate)` and returns whether that value is
`>= min_distance`.  Note the code compares the strsimpy *distance* (not the
LCS length) against the threshold.  The comparison `d >= 0.7 * n` between
the integer distance and the scaled query length is modelled exactly by
`10 * d >= 7 * n`; no comparison proved below is close enough to the
threshold for the float rounding of `0.7` to matter. -/
def subStringResolver (query_string_norm synonym_string_norm : String) : Bool :=
  decide (10 * strsimpyLcsDistance query_string_norm synonym_string_norm
    ≥ 7 * query_string_norm.length)

/-- Allowed knowledge-base overlap groups, from `Disambiguator.__init__`:
the two frozensets assigned to `self.allowed_overlaps`. -/
def allowedOverlaps : List (List String) :=
  [["MONDO", "MEDDRA", "OPENTARGETS_DISEASE"],
   ["CHEMBL", "OPENTARGETS_MOLECULE", "OPENTARGETS_TARGET"]]

/-- Disambiguator.kbs_are_compatible: true if the kb set has exactly one
element, or is a subset of one of the allowed overlap groups.  The Python
set argument is modelled as a duplicate-free list. -/
def kbsAreCompatible (kbs : List String) : Bool :=
  if kbs.length == 1 then true
  else allowedOverlaps.any (fun overlap => kbs.all (fun kb => decide (kb ∈ overlap)))

/-- Entity test used by `KeepHighConfidenceHitsGlobalDisambiguationStrategy`:
the for/else loop keeps an entity as soon as one hit has HIGH confidence. -/
def hasHighConfHit (e : Entity) : Bool :=
  e.hits.any (fun h => h.confidence == LinkRanks.high)

/-- Partition loop of `KeepHighConfidenceHitsGlobalDisambiguationStrategy`:
entities with a HIGH-confidence hit are appended to the kept list, all
others to the still-ambiguous list, preserving input order. -/
def keepHighLoop : List Entity → List Entity × List Entity
  | [] => ([], [])
  | e :: rest =>
    let p := keepHighLoop rest
    if hasHighConfHit e then (e :: p.1, p.2) else (p.1, e :: p.2)

/-- Default of `min_string_length_to_test_for_high_confidence` in
`KeepHighConfidenceHitsGlobalDisambiguationStrategy.__init__`. -/
def keepHighDefaultMinLen : Nat := 3

/-- KeepHighConfidenceHitsGlobalDisambiguationStrategy.__call__: when the
mention text is at least `minLen` characters, partition by HIGH-confidence
hit; otherwise keep nothing and return every entity still-ambiguous. -/
def keepHighConfCall (minLen : Nat) (ent_match : String) (entities : List Entity) :
    List Entity × List Entity :=
  if minLen ≤ ent_match.length then keepHighLoop entities
  else ([], entities)

/-- Scaled edit cost of one bigram comparison in the strsimpy `NGram`
distance (Kondrak's algorithm, n = 2).  With `cost` the number of
mismatching positions and `tn` the number of positions that are not a
matched padding character, the algorithm uses `ec = cost / tn`; every such
value is a multiple of 1/2, so `2 * ec` is returned as a natural number.
`tn = 0` cannot occur for the index ranges the algorithm visits. -/
def ecScaled (c0 c1 t0 t1 : Char) : Nat :=
  let cost := (if c0 = t0 then 0 else 1) + (if c1 = t1 then 0 else 1)
  let tn := 2 - ((if c0 = t0 ∧ c0 = '\n' then 1 else 0) + (if c1 = t1 ∧ c1 = '\n' then 1 else 0))
  if tn = 1 then 2 * cost else cost

/-- One row of the strsimpy `NGram` dynamic program, scaled by 2:
`d[i] = min(d[i-1] + 1, p[i] + 1, p[i-1] + ec)` over the padded source
characters `c0 :: c1 :: cs` against the current target bigram `(t0, t1)`. -/
def ngramRowGo : List Char → List Nat → Char → Char → Nat → List Nat
  | c0 :: c1 :: cs, p0 :: p1 :: ps, t0, t1, dprev =>
    let di := min (dprev + 2) (min (p1 + 2) (p0 + ecScaled c0 c1 t0 t1))
    di :: ngramRowGo (c1 :: cs) (p1 :: ps) t0 t1 di
  | _, _, _, _, _ => []

/-- Full row including the boundary value `d[0] = j` (scaled by 2). -/
def ngramRow (sa : List Char) (p : List Nat) (t0 t1 : Char) (j : Nat) : List Nat :=
  2 * j :: ngramRowGo sa p t0 t1 (2 * j)

/-- Main loop of the strsimpy `NGram(2)` distance for strings of length at
least 2: the final dynamic-programming value `p[sl]`, scaled by 2. -/
def ngramMainScaled (s0d s1d : List Char) : Nat :=
  let sl := s0d.length
  let sa := '\n' :: s0d
  let p0 := (List.range (sl + 1)).map (fun i => 2 * i)
  let pfin := (List.range s1d.length).foldl (fun p j1 =>
    let t0 := if j1 = 0 then '\n' else s1d.getD (j1 - 1) '\n'
    let t1 := s1d.getD j1 '\n'
    ngramRow sa p t0 t1 (j1 + 1)) p0
  pfin.getLastD 0

/-- Positional-match count used by strsimpy `NGram.distance` when either
string is shorter than n: the number of indices below the shorter length
at which the two strings agree. -/
def ngramShortMatches (d0 d1 : List Char) : Nat :=
  ((List.range (min d0.length d1.length)).filter
    (fun i => d0.getD i '\n' = d1.getD i '\n')).length

/-- Distance of `strsimpy.NGram(2).distance`, as used by
`SynonymDataDisambiguationStrategy.ngram_disambiguation`: zero on equal
strings, 1 when either string is empty, a positional mismatch ratio when
either string is shorter than 2, otherwise the dynamic-programming value
divided by `max(len(s0), len(s1))`.  The float computation is modelled
exactly over the rationals (every intermediate value is a multiple of
1/2 and small enough to be exact in binary floating point); only the
final division can round, which no comparison below depends on. -/
def ngramDist2 (s0 s1 : String) : ℚ :=
  if s0 = s1 then 0
  else if s0.length = 0 ∨ s1.length = 0 then 1
  else if s0.length < 2 ∨ s1.length < 2 then
    1 - ((ngramShortMatches s0.data s1.data : ℚ) / (max s0.length s1.length : ℚ))
  else (ngramMainScaled s0.data s1.data : ℚ) / ((2 * max s0.length s1.length : Nat) : ℚ)

/-- External collaborators of the disambiguation module, passed in as
functions: the string normalizer, the symbol classifier, the synonym and
metadata registries, and the fitted tf-idf vectorizer.  The vectorizer is
modelled by `dot`, the similarity of a document query string and one
candidate string; tf-idf scores are reals, modelled here with integer
values (the code only orders scores and compares them to constants). -/
structure DisambConfig where
  normalize : String → String
  isSymbolLike : String → Bool
  synDbGet : String → String → List SynData
  getSynsForId : String → String → List String
  getKbsForSynGlobal : String → List String
  getDefaultLabel : String → String → String
  dot : String → String → ℤ

/-- SynonymDataDisambiguationStrategy.ngram_disambiguation: builds
`(syn_data, normalized default label)` pairs for every identifier of every
ambiguous SynonymData, attaches the `NGram(2)` distance of the synonym to
each label, and returns `sorted(scores, key=lambda x: x[1])[0][0]`.  The
sort key `x[1]` is the *label* string, so the result is the SynonymData
whose label is smallest in string order (first occurrence on ties, since
Python's sort is stable); the computed distances do not influence the
choice.  Returns `none` on an empty candidate list, where Python's
`[0]` would raise. -/
def ngramDisambiguation (cfg : DisambConfig) (source synonym : String)
    (sds : List SynData) : Option SynData :=
  let labelled := sds.flatMap (fun sd =>
    sd.ids.map (fun idx => (sd, cfg.normalize (cfg.getDefaultLabel source idx))))
  let scores := labelled.map (fun p => (p.1, p.2, ngramDist2 synonym p.2))
  match scores with
  | [] => none
  | x :: xs => some (xs.foldl (fun best y => if strLtB y.2.1 best.2.1 then y else best) x).1

/-- SynonymDataDisambiguationStrategy.resolve_synonym_and_source: reject on
number mismatch, then (when configured) on substring mismatch; look the
synonym up in the synonym registry for this source; with more than one
SynonymData, give up on synonyms shorter than 5 characters and run the
ngram disambiguation on longer ones; with exactly one, return it. -/
def resolveSynonymAndSource (cfg : DisambConfig) (ent_match_norm : String)
    (check_string : Bool) (source synonym : String) : Option SynData :=
  if !(numberResolver ent_match_norm synonym) then none
  else if check_string && !(subStringResolver ent_match_norm synonym) then none
  else
    let sds := cfg.synDbGet source synonym
    if 1 < sds.length then
      if synonym.length < 5 then none
      else ngramDisambiguation cfg source synonym sds
    else if sds.length = 1 then sds.head?
    else none

/-- TfIdfCorpusScorer.__call__ with find_neighbours_and_scores: an empty
corpus yields nothing; a single-element corpus yields the negated raw
score (the source's `100 * -distances` rescaling is skipped in its
`size == 1` branch); otherwise the corpus entries are yielded in
descending score order (argsort of the negated scores; numpy's argsort
tie order is unspecified and is modelled by a stable sort) with scores
scaled by 100. -/
def tfIdfCorpusScorer (score : String → ℤ) (corpus : List String) : List (String × ℤ) :=
  match corpus with
  | [] => []
  | [s] => [(s, -(score s))]
  | _ =>
    let idxs := sortBy
      (fun i j => decide (-(score (corpus.getD i "")) ≤ -(score (corpus.getD j ""))))
      (List.range corpus.length)
    idxs.map (fun i => (corpus.getD i "", 100 * score (corpus.getD i "")))

/-- Identifier/hit set of `SynonymDbQueryExtensions.create_corpus_for_source`:
the set comprehension over all hits, their SynonymData and identifiers,
modelled as a value-deduplicated list. -/
def ambigIdsThisSource (hits : List Hit) : List (String × Hit) :=
  (hits.flatMap (fun hit =>
    hit.syn_data.flatMap (fun sd => sd.ids.map (fun idx => (idx, hit))))).dedup

/-- Corpus construction of `create_corpus_for_source`: for every
`(idx, hit)` pair, every synonym of `idx` is appended to the corpus and
`hit` is appended to that synonym's lookup list.  The corpus and the
lookup are modelled together as the list of `(synonym, hit)` pairs in
append order. -/
def corpusPairs (cfg : DisambConfig) (hits : List Hit) (source : String) :
    List (String × Hit) :=
  (ambigIdsThisSource hits).flatMap (fun p =>
    (cfg.getSynsForId source p.1).map (fun syn => (syn, p.2)))

/-- The `hit_lookup[syn]` list of `create_corpus_for_source`. -/
def hitLookup (pairs : List (String × Hit)) (syn : String) : List Hit :=
  (pairs.filter (fun p => p.1 == syn)).map (fun p => p.2)

/-- Inner candidate loop of `TfIdfKnowledgeBaseDisambiguationStrategy.__call__`
for one source: walk the scored synonyms in order, and at the first synonym
that `resolve_synonym_and_source` accepts, yield the first hit of its
lookup list at MEDIUM confidence and break.  (The source logs a warning
when the lookup list has several hits and keeps the first; an empty lookup
list cannot occur for a corpus synonym, where Python's `[0]` would raise,
and is modelled as yielding nothing.) -/
def scanSyns (resolve : String → Option SynData) (pairs : List (String × Hit)) :
    List (String × ℤ) → List (Hit × SynData × LinkRanks)
  | [] => []
  | (syn, _) :: rest =>
    match resolve syn with
    | none => scanSyns resolve pairs rest
    | some sd =>
      match hitLookup pairs syn with
      | [] => []
      | h :: _ => [(h, sd, LinkRanks.medium)]

/-- Per-source body of `TfIdfKnowledgeBaseDisambiguationStrategy.__call__`:
build this source's corpus from its hits, score it against the document
query, sort descending by score (line `sorted(syns_and_scores, ...,
reverse=True)`), and scan for the first resolvable synonym. -/
def tfIdfKbScanSource (cfg : DisambConfig) (query entNorm : String)
    (ambigHits : List Hit) (src : String) : List (Hit × SynData × LinkRanks) :=
  let hitsThisSource := ambigHits.filter (fun h => h.source == src)
  let pairs := corpusPairs cfg hitsThisSource src
  let scored := tfIdfCorpusScorer (cfg.dot query) (pairs.map (fun p => p.1))
  let sortedScores := sortBy (fun a b => decide (b.2 ≤ a.2)) scored
  scanSyns (fun syn => resolveSynonymAndSource cfg entNorm false src syn) pairs sortedScores

/-- TfIdfKnowledgeBaseDisambiguationStrategy.__call__: deduplicate the
entities' hits, group them by source (`groupby` over the source-sorted
hits is modelled as the deduplicated source list with a filter per
source), and scan each source's group. -/
def tfIdfKbCall (cfg : DisambConfig) (query ent_match : String)
    (entities : List Entity) : List (Hit × SynData × LinkRanks) :=
  let ambigHits := (entities.flatMap (fun e => e.hits)).dedup
  ((ambigHits.map (fun h => h.source)).dedup).flatMap
    (tfIdfKbScanSource cfg query (cfg.normalize ent_match) ambigHits)

/-- SynonymDbQueryExtensions.collect_all_syns_from_ents: all synonyms of
all identifiers of all hits of the entities, skipping LOW-confidence hits
(`pydash.flatten_deep` of a list of strings is the list itself). -/
def collectAllSynsFromEnts (cfg : DisambConfig) (ents : List Entity) : List String :=
  ents.flatMap (fun e => e.hits.flatMap (fun h =>
    if h.confidence == LinkRanks.low then []
    else h.syn_data.flatMap (fun sd =>
      sd.ids.flatMap (fun idx => cfg.getSynsForId h.source idx))))

/-- The `hit_sources_to_ents` table of
`TfIdfGlobalDisambiguationStrategy.__call__`: the set of entities having a
hit from the given source (each entity appears once, in input order). -/
def entsWithHitFromSource (entities : List Entity) (src : String) : List Entity :=
  entities.filter (fun e => e.hits.any (fun h => h.source == src))

/-- Inner knowledge-base loop of `TfIdfGlobalDisambiguationStrategy`:
`for kb_hit in kbs_this_hit`, take the entities of the first knowledge
base that has any, and break. -/
def firstKbEnts (entsFor : String → List Entity) : List String → List Entity
  | [] => []
  | kb :: rest =>
    let es := entsFor kb
    if es.isEmpty then firstKbEnts entsFor rest else es

/-- The fixed score threshold `self.threshold = 7.0` of
`TfIdfGlobalDisambiguationStrategy`. -/
def globalTfIdfThreshold : ℤ := 7

/-- Scored-synonym loop of `TfIdfGlobalDisambiguationStrategy.__call__`:
below the threshold every entity stays ambiguous and the loop breaks; an
incompatible knowledge-base set skips to the next synonym; otherwise the
entities of the first knowledge base of the set that has any are kept and
the loop breaks; an exhausted loop returns both lists empty. -/
def globalLoop (cfg : DisambConfig) (entities : List Entity) :
    List (String × ℤ) → List Entity × List Entity
  | [] => ([], [])
  | (syn, sc) :: rest =>
    if sc < globalTfIdfThreshold then ([], entities)
    else
      let kbs := cfg.getKbsForSynGlobal syn
      if !(kbsAreCompatible kbs) then globalLoop cfg entities rest
      else
        let kept := firstKbEnts (entsWithHitFromSource entities) kbs
        if 0 < kept.length then (kept, []) else globalLoop cfg entities rest

/-- TfIdfGlobalDisambiguationStrategy.__call__: collect the deduplicated
synonym corpus of all the entities' hits, score it against the document
query, and run the scored-synonym loop. -/
def tfIdfGlobalCall (cfg : DisambConfig) (query : String) (entities : List Entity) :
    List Entity × List Entity :=
  let corpus := (collectAllSynsFromEnts cfg entities).dedup
  globalLoop cfg entities (tfIdfCorpusScorer (cfg.dot query) corpus)

/-- State of a tensor-backed embedding index (`TensorEmbeddingIndex` in
`kazu/utils/link_index.py`): `index` is `None` before the first `add`, and
afterwards the 2-d tensor of embeddings; `metadata` is the metadata table,
modelled as a list of rows. -/
structure EmbeddingIndexState where
  index : Option (List (List ℚ))
  metadata : List (List String)
deriving DecidableEq

/-- EmbeddingIndex.add specialised to TensorEmbeddingIndex, whose
`_create_index` returns the embeddings and whose `_add` is `torch.cat`.
The row-count check raises ValueError before any field is assigned, so on
mismatch the state is returned unchanged alongside the error. -/
def tensorEmbeddingAdd (s : EmbeddingIndexState) (embeddings : List (List ℚ))
    (metadata : List (List String)) : Except String Unit × EmbeddingIndexState :=
  if embeddings.length ≠ metadata.length then
    (Except.error "embeddings length not equal to metadata length", s)
  else
    match s.index with
    | none => (Except.ok (), { index := some embeddings, metadata := metadata })
    | some idx =>
      (Except.ok (), { index := some (idx ++ embeddings), metadata := s.metadata ++ metadata })

/-- DocumentManipulator.get_document_representation joined with " . " as in
the `prepare` methods: the normalized match strings of all the document's
entities, in order. -/
def docQuery (cfg : DisambConfig) (allEnts : List Entity) : String :=
  String.intercalate " . " (allEnts.map (fun e => cfg.normalize e.ent_match))

/-- GlobalDisambiguationStrategyList.__call__ for the configured chain
`[KeepHighConfidenceHits, TfIdfGlobal]`: the first strategy returning a
non-empty kept list wins and its class name labels the result; otherwise
`("no_successful_strategy", [], entities)`. -/
def globalStrategyListCall (cfg : DisambConfig) (allEnts : List Entity)
    (entity_string : String) (entities : List Entity) :
    String × List Entity × List Entity :=
  let r1 := keepHighConfCall keepHighDefaultMinLen entity_string entities
  if 0 < r1.1.length then ("KeepHighConfidenceHitsGlobalDisambiguationStrategy", r1)
  else
    let r2 := tfIdfGlobalCall cfg (docQuery cfg allEnts) entities
    if 0 < r2.1.length then ("TfIdfGlobalDisambiguationStrategy", r2)
    else ("no_successful_strategy", [], entities)

/-- Disambiguator.execute_global_disambiguation_strategy: group the given
entities by match string (`groupby` over the match-sorted list, modelled as
deduplicated match keys with a filter per key) and collect the entities
each group's strategy chain resolves.  The source selects between two
strategy-list attributes on the `symbolic` flag (with the two branches
swapped relative to the flag's name), but both attributes are constructed
with the identical chain, so a single chain function is used here. -/
def executeGlobalEnts (cfg : DisambConfig) (allEnts ents : List Entity) : List Entity :=
  let sortedE := sortBy (fun a b => !(strLtB b.ent_match a.ent_match)) ents
  let matchKeys := (sortedE.map (fun e => e.ent_match)).dedup
  matchKeys.flatMap (fun m =>
    (globalStrategyListCall cfg allEnts m
      (sortedE.filter (fun e => e.ent_match == m))).2.1)

/-- Python dictionary lookup `ids_to_source[idx]` on the association list;
a missing key (which would raise KeyError) is modelled as the empty string. -/
def lookupD (l : List (String × String)) (k : String) : String :=
  match l.find? (fun p => p.1 == k) with
  | some p => p.2
  | none => ""

/-- The `DISAMBIGUATED_BY` metadata key. -/
def disambiguatedByKey : String := "disambiguated_by"

/-- Mapping construction of `DisambiguationStrategyList.__call__`: one
Mapping per identifier of each yielded SynonymData, carrying the source of
the hit as data origin and the winning strategy's class name in the
additional metadata. -/
def makeMappings (strategyName : String)
    (triples : List (Hit × SynData × LinkRanks)) : List Mapping :=
  triples.flatMap (fun t =>
    t.2.1.ids.map (fun idx =>
      { data_origin := t.1.source
        source := lookupD t.2.1.ids_to_source idx
        idx := idx
        mapping_type := t.2.1.mapping_type
        confidence := t.2.2
        additional_metadata := [(disambiguatedByKey, strategyName)] }))

/-- DocumentManipulator.mappings_to_source_and_idx_tuples: the set of
`(source, idx)` pairs of all mappings of all the document's entities. -/
def mappingsToSourceAndIdxTuples (allEnts : List Entity) : List (String × String) :=
  (allEnts.flatMap (fun e => e.mappings.map (fun m => (m.source, m.idx)))).dedup

/-- RequireFullDefinitionKnowledgeBaseDisambiguationStrategy.__call__:
yield `(hit, syn_data, HIGH)` for every identifier of every SynonymData of
every (deduplicated) hit whose `(source, idx)` pair is already resolved
elsewhere in the document. -/
def requireFullDefCall (allEnts ents : List Entity) :
    List (Hit × SynData × LinkRanks) :=
  let resolved := mappingsToSourceAndIdxTuples allEnts
  let hits := (ents.flatMap (fun e => e.hits)).dedup
  hits.flatMap (fun hit => hit.syn_data.flatMap (fun sd =>
    (sd.ids.filter (fun idx => decide ((hit.source, idx) ∈ resolved))).map
      (fun _ => (hit, sd, LinkRanks.high))))

/-- DisambiguationStrategyList.__call__ mapping collection for the two
chain shapes the Disambiguator configures (each chain holds exactly one
strategy, so the first-success loop degenerates): the TfIdf chain for
non-symbolic gene/disease/drug groups, the RequireFullDefinition chain
everywhere else. -/
def kbStrategyChainApply (cfg : DisambConfig) (useTfIdf : Bool)
    (allEnts : List Entity) (entity_string : String) (grp : List Entity) : List Mapping :=
  if useTfIdf then
    makeMappings "TfIdfKnowledgeBaseDisambiguationStrategy"
      (tfIdfKbCall cfg (docQuery cfg allEnts) entity_string grp)
  else
    makeMappings "RequireFullDefinitionKnowledgeBaseDisambiguationStrategy"
      (requireFullDefCall allEnts grp)

/-- The in-place `ent.mappings.extend(copy.deepcopy(mappings))` loop of
`DisambiguationStrategyList.__call__`, as a document-state update: every
entity whose object identity is in the group receives value copies of the
created mappings. -/
def attachMappingsEnts (allEnts : List Entity) (ids : List Nat) (ms : List Mapping) :
    List Entity :=
  allEnts.map (fun e =>
    if decide (e.id ∈ ids) then { e with mappings := e.mappings ++ ms } else e)

/-- Python tuple comparison on `(match, entity_class)` keys. -/
def pairLeB (a b : String × String) : Bool :=
  if a.1 = b.1 then !(strLtB b.2 a.2) else !(strLtB b.1 a.1)

/-- Classes with a dedicated (TfIdf) non-symbolic chain in
`Disambiguator.__init__`. -/
def isTfIdfClass (cls : String) : Bool :=
  cls == "gene" || cls == "disease" || cls == "drug"

/-- Disambiguator.execute_kb_disambiguation_strategy: group the cleared
entities by `(match, entity_class)` and run each group's strategy chain
against the current document state, attaching the produced mappings to the
group's entities; groups are processed in key order, so a later group sees
the mappings attached by earlier ones. -/
def executeKbEnts (cfg : DisambConfig) (allEnts ents : List Entity)
    (symbolic : Bool) : List Entity :=
  let sortedE := sortBy
    (fun a b => pairLeB (a.ent_match, a.entity_class) (b.ent_match, b.entity_class)) ents
  let keys := (sortedE.map (fun e => (e.ent_match, e.entity_class))).dedup
  keys.foldl (fun cur key =>
    let grp := sortedE.filter (fun e => (e.ent_match, e.entity_class) == key)
    let ms := kbStrategyChainApply cfg (!symbolic && isTfIdfClass key.2) cur key.1 grp
    attachMappingsEnts cur (grp.map (fun e => e.id)) ms) allEnts

/-- Disambiguator.sort_entities_by_symbolism: group by match string and
route each group through `StringNormalizer.is_probably_symbol_like`
(grouping plus extension of contiguous groups equals filtering the sorted
list). -/
def sortEntitiesBySymbolism (cfg : DisambConfig) (entities : List Entity) :
    List Entity × List Entity :=
  let sortedE := sortBy (fun a b => !(strLtB b.ent_match a.ent_match)) entities
  (sortedE.filter (fun e => cfg.isSymbolLike e.ent_match),
   sortedE.filter (fun e => !(cfg.isSymbolLike e.ent_match)))

/-- Disambiguator.run on the document's entity list: split by symbolism,
run the global then the knowledge-base stage for non-symbolic groups, then
the same two stages for symbolic groups on the updated state. -/
def runDisambEnts (cfg : DisambConfig) (allEnts : List Entity) : List Entity :=
  let parts := sortEntitiesBySymbolism cfg allEnts
  let cleared1 := executeGlobalEnts cfg allEnts parts.2
  let ents1 := executeKbEnts cfg allEnts cleared1 false
  let cleared2 := executeGlobalEnts cfg ents1 parts.1
  executeKbEnts cfg ents1 cleared2 true

/-- Disambiguator.run: the document is mutated in place; every read of the
document inside the pipeline goes through `get_entities`, so the update
touches only the entity list. -/
def runDisamb (cfg : DisambConfig) (doc : Document) : Document :=
  { doc with entities := runDisambEnts cfg doc.entities }

/-- Heap cell update for the aliasing model of
`DisambiguationStrategyList.__call__`: overwrite the additional metadata of
the Mapping object at one heap address. -/
def setMetaAt : List Mapping → Nat → List (String × String) → List Mapping
  | [], _, _ => []
  | m :: rest, 0, md => { m with additional_metadata := md } :: rest
  | m :: rest, n + 1, md => m :: setMetaAt rest n md

/-- An entity in the aliasing model: the list of heap addresses of the
Mapping objects attached to it. -/
structure HeapEntity where
  addrs : List Nat
deriving DecidableEq

/-- The `for ent in entities: ent.mappings.extend(copy.deepcopy(mappings))`
loop of `DisambiguationStrategyList.__call__` over an explicit heap of
Mapping objects: `copy.deepcopy` allocates fresh cells holding value
copies of the created mappings, and each entity's address list is extended
with its own fresh addresses. -/
def attachLoop (heap : List Mapping) (ms : List Mapping) :
    List HeapEntity → List Mapping × List HeapEntity
  | [] => (heap, [])
  | e :: rest =>
    let fresh := (List.range ms.length).map (fun k => heap.length + k)
    let r := attachLoop (heap ++ ms) ms rest
    (r.1, ⟨e.addrs ++ fresh⟩ :: r.2)

/-- The fresh addresses `attachLoop` hands to the k-th entity when started
on a heap of length `base` with `n` created mappings. -/
def freshAddrs (base n k : Nat) : List Nat :=
  (List.range n).map (fun q => base + k * n + q)

/-! Concrete instantiations of the registry/vectorizer collaborators used
to exercise the strategies on small inputs. -/

/-- Ambiguous SynonymData whose identifier's default label is "AAAAA". -/
def sdC3a : SynData := ⟨["id1"], [("id1", "SRC")], "exact"⟩

/-- Ambiguous SynonymData whose identifier's default label is "ABCDE". -/
def sdC3b : SynData := ⟨["id2"], [("id2", "SRC")], "exact"⟩

/-- Collaborators for the ngram-disambiguation scenario: the synonym
"ABCDE" of source "SRC" is ambiguous between `sdC3b` (label "ABCDE") and
`sdC3a` (label "AAAAA"). -/
def exCfgC3 : DisambConfig := {
  normalize := fun s => s
  isSymbolLike := fun _ => false
  synDbGet := fun src syn => if src == "SRC" && syn == "ABCDE" then [sdC3b, sdC3a] else []
  getSynsForId := fun _ _ => []
  getKbsForSynGlobal := fun _ => []
  getDefaultLabel := fun _ idx => if idx == "id2" then "ABCDE" else "AAAAA"
  dot := fun _ _ => 0 }

/-- Entity with one CHEMBL hit. -/
def entC2a : Entity :=
  ⟨1, "imatinib", "drug",
   [⟨"CHEMBL", LinkRanks.medium, [⟨["chem1"], [("chem1", "CHEMBL")], "exact"⟩]⟩], []⟩

/-- Entity with one OPENTARGETS_MOLECULE hit. -/
def entC2b : Entity :=
  ⟨2, "imatinib", "drug",
   [⟨"OPENTARGETS_MOLECULE", LinkRanks.medium,
     [⟨["ot1"], [("ot1", "OPENTARGETS_MOLECULE")], "exact"⟩]⟩], []⟩

/-- Collaborators for the global-TfIdf scenario: "syna" (the best-scoring
synonym) is used by both CHEMBL and OPENTARGETS_MOLECULE, a compatible
knowledge-base set. -/
def exCfgC2 : DisambConfig := {
  normalize := fun s => s
  isSymbolLike := fun _ => false
  synDbGet := fun _ _ => []
  getSynsForId := fun src idx =>
    if src == "CHEMBL" && idx == "chem1" then ["syna", "synb"]
    else if src == "OPENTARGETS_MOLECULE" && idx == "ot1" then ["syna"] else []
  getKbsForSynGlobal := fun syn =>
    if syn == "syna" then ["CHEMBL", "OPENTARGETS_MOLECULE"] else ["CHEMBL"]
  getDefaultLabel := fun _ _ => ""
  dot := fun _ syn => if syn == "syna" then 1 else 0 }

/-- Entity all of whose hits have LOW confidence. -/
def entC10low : Entity :=
  ⟨3, "pd1", "gene",
   [⟨"CHEMBL", LinkRanks.low, [⟨["c9"], [("c9", "CHEMBL")], "exact"⟩]⟩], []⟩

/-- Collaborators for the exhausted-corpus scenario: every synonym scores
above the threshold but maps to the incompatible set {CHEMBL, MONDO}. -/
def exCfgC10 : DisambConfig := {
  normalize := fun s => s
  isSymbolLike := fun _ => false
  synDbGet := fun _ _ => []
  getSynsForId := fun src idx => if src == "CHEMBL" && idx == "c1" then ["s1", "s2"] else []
  getKbsForSynGlobal := fun _ => ["CHEMBL", "MONDO"]
  getDefaultLabel := fun _ _ => ""
  dot := fun _ syn => if syn == "s1" then 1 else 2 }

/-- Entity with one MEDIUM-confidence CHEMBL hit. -/
def entC10m : Entity :=
  ⟨4, "abc", "drug",
   [⟨"CHEMBL", LinkRanks.medium, [⟨["c1"], [("c1", "CHEMBL")], "exact"⟩]⟩], []⟩

/-- Entity carrying one HIGH-confidence hit. -/
def entHighW : Entity :=
  ⟨5, "EGFR", "gene",
   [⟨"ENSEMBL", LinkRanks.high, [⟨["g1"], [("g1", "ENSEMBL")], "exact"⟩]⟩], []⟩

/-- A Mapping value used as heap content in the aliasing scenario. -/
def mapW : Mapping :=
  ⟨"CHEMBL", "CHEMBL", "CHEMBL1", "exact", LinkRanks.medium, [(disambiguatedByKey, "t")]⟩

/-! Theorems settling the claims. -/

/-- Claim C1: the claim states that `SubStringResolver(q)(c)` accepts iff
the LCS length of q and c is at least 0.7 times the length of q, rejecting
"aspirin" and accepting "osimertinib mesylate" for query "osimertinib".
The code instead compares the strsimpy LCS *distance*
(`len(q) + len(c) - 2 * lcs`) against the threshold: it accepts "aspirin"
(distance 8 ≥ 7.7 although the LCS length 5 is far below 70% of 11),
and it even rejects the query string itself (distance 0).  This theorem
evaluates the embedded resolver at those inputs, against the claim's
acceptance condition stated on the LCS length. -/
theorem c1_substring_resolver_code_divergence :
    subStringResolver "osimertinib" "aspirin" = true ∧
    lcsLength "osimertinib" "aspirin" = 5 ∧
    ¬ (10 * lcsLength "osimertinib" "aspirin" ≥ 7 * String.length "osimertinib") ∧
    subStringResolver "osimertinib" "osimertinib mesylate" = true ∧
    subStringResolver "osimertinib" "osimertinib" = false := by
  refine ⟨by decide, by decide, by decide, by decide, by decide⟩

/-- Claim C2, counterexample: with the best-scoring synonym "syna" at
score 100 ≥ 7 and the compatible knowledge-base set
{CHEMBL, OPENTARGETS_MOLECULE}, the strategy keeps only the entity with a
CHEMBL hit; the entity whose hit comes from OPENTARGETS_MOLECULE — a
member of that same set — is not in the kept list, contradicting the
claim that every entity with a hit from any knowledge base of the set is
kept. -/
theorem c2_counterexample :
    tfIdfGlobalCall exCfgC2 "q" [entC2a, entC2b] = ([entC2a], []) ∧
    tfIdfCorpusScorer (exCfgC2.dot "q")
      ((collectAllSynsFromEnts exCfgC2 [entC2a, entC2b]).dedup)
      = [("syna", 100), ("synb", 0)] ∧
    kbsAreCompatible (exCfgC2.getKbsForSynGlobal "syna") = true ∧
    entC2b.hits.any (fun h => decide (h.source ∈ exCfgC2.getKbsForSynGlobal "syna")) = true ∧
    entC2b ∉ [entC2a] := by
  refine ⟨by decide, by decide, by decide, by decide, by decide⟩

/-- Claim C2, amended: once the best-scoring synonym at or above the
threshold has a compatible knowledge-base set, the kept list is the entity
set of the *first* knowledge base in that set's iteration order that has
at least one entity with a hit from it (entities whose hits come only from
other members of the set are not kept), and no further synonyms are
examined. -/
theorem c2_amended_first_kb_only (cfg : DisambConfig) (entities : List Entity)
    (syn : String) (sc : ℤ) (rest : List (String × ℤ))
    (hthr : ¬ sc < globalTfIdfThreshold)
    (hcompat : kbsAreCompatible (cfg.getKbsForSynGlobal syn) = true)
    (hne : firstKbEnts (entsWithHitFromSource entities) (cfg.getKbsForSynGlobal syn) ≠ []) :
    globalLoop cfg entities ((syn, sc) :: rest)
      = (firstKbEnts (entsWithHitFromSource entities) (cfg.getKbsForSynGlobal syn), []) ∧
    ∀ (entsFor : String → List Entity) (kb : String) (kbs : List String),
      (entsFor kb ≠ [] → firstKbEnts entsFor (kb :: kbs) = entsFor kb) ∧
      (entsFor kb = [] → firstKbEnts entsFor (kb :: kbs) = firstKbEnts entsFor kbs) := by
  constructor
  · have hlen : 0 < (firstKbEnts (entsWithHitFromSource entities)
        (cfg.getKbsForSynGlobal syn)).length := List.length_pos.mpr hne
    simp only [globalLoop, if_neg hthr, hcompat, Bool.not_true, Bool.false_eq_true,
      if_neg, if_pos hlen]
    simp
  · intro entsFor kb kbs
    constructor
    · intro h
      simp [firstKbEnts, List.isEmpty_iff, h]
    · intro h
      simp [firstKbEnts, List.isEmpty_iff, h]

/-- Claim C2, amended, witness: the amended statement applied to the
concrete two-entity scenario. -/
theorem c2_amended_witness :
    globalLoop exCfgC2 [entC2a, entC2b] [("syna", 100)]
      = (firstKbEnts (entsWithHitFromSource [entC2a, entC2b])
          (exCfgC2.getKbsForSynGlobal "syna"), []) :=
  (c2_amended_first_kb_only exCfgC2 [entC2a, entC2b] "syna" 100 []
    (by decide) (by decide) (by decide)).1

/-- Claim C3: the claim states that among ambiguous SynonymData for a
synonym longer than 4 characters, the one with the minimum bigram distance
between its normalized default label and the synonym is chosen.  The code
computes those distances but sorts the `(syn_data, label, score)` triples
by the *label* (`key=lambda x: x[1]`), so it returns the SynonymData with
the alphabetically smallest label: for synonym "ABCDE" it picks the
candidate labelled "AAAAA" (distance 7/10) over the candidate labelled
"ABCDE" (distance 0), and that choice flows through
`resolve_synonym_and_source`. -/
theorem c3_ngram_sort_key_divergence :
    ngramDisambiguation exCfgC3 "SRC" "ABCDE" [sdC3b, sdC3a] = some sdC3a ∧
    resolveSynonymAndSource exCfgC3 "ABCDE" false "SRC" "ABCDE" = some sdC3a ∧
    exCfgC3.getDefaultLabel "SRC" "id1" = "AAAAA" ∧
    exCfgC3.getDefaultLabel "SRC" "id2" = "ABCDE" ∧
    ngramDist2 "ABCDE" "ABCDE" = 0 ∧
    0 < ngramDist2 "ABCDE" "AAAAA" := by
  refine ⟨by decide, by decide, by decide, by decide, by simp [ngramDist2], ?_⟩
  have h : ngramMainScaled "ABCDE".data "AAAAA".data = 7 := by decide
  have hl : (2 * max (String.length "ABCDE") (String.length "AAAAA") : Nat) = 10 := by decide
  unfold ngramDist2
  rw [if_neg (by decide), if_neg (by decide), if_neg (by decide), h, hl]
  norm_num

/-- Claim C5: `kbs_are_compatible` returns true exactly when the set has
one element or is a subset of one of the two allowed overlap groups, and
in particular on the three sets named by the claim. -/
theorem c5_kbs_are_compatible_iff :
    (∀ kbs : List String, kbsAreCompatible kbs = true ↔
      (kbs.length = 1 ∨ kbs ⊆ ["MONDO", "MEDDRA", "OPENTARGETS_DISEASE"]
        ∨ kbs ⊆ ["CHEMBL", "OPENTARGETS_MOLECULE", "OPENTARGETS_TARGET"])) ∧
    kbsAreCompatible ["CHEMBL"] = true ∧
    kbsAreCompatible ["CHEMBL", "OPENTARGETS_MOLECULE"] = true ∧
    kbsAreCompatible ["CHEMBL", "MONDO"] = false := by
  refine ⟨fun kbs => ?_, by decide, by decide, by decide⟩
  by_cases h : kbs.length = 1
  · simp [kbsAreCompatible, h]
  · have hbeq : (kbs.length == 1) = false := by simp [h]
    simp [kbsAreCompatible, hbeq, allowedOverlaps, h, List.subset_def]

/-- Unfolding of the partition loop of
`KeepHighConfidenceHitsGlobalDisambiguationStrategy`. -/
theorem keepHighLoop_eq_filter (l : List Entity) :
    keepHighLoop l = (l.filter hasHighConfHit, l.filter (fun e => !(hasHighConfHit e))) := by
  induction l with
  | nil => rfl
  | cons e rest ih =>
    cases h : hasHighConfHit e <;> simp [keepHighLoop, List.filter, ih, h]

/-- Claim C6: with mention text at least the minimum length (default 3),
exactly the entities carrying a HIGH-confidence hit are kept and the rest
are returned still-ambiguous; below the minimum, nothing is kept and every
entity is returned still-ambiguous. -/
theorem c6_keep_high_confidence_partition (minLen : Nat) (m : String)
    (entities : List Entity) :
    (minLen ≤ m.length →
      keepHighConfCall minLen m entities
        = (entities.filter hasHighConfHit,
           entities.filter (fun e => !(hasHighConfHit e)))) ∧
    (m.length < minLen → keepHighConfCall minLen m entities = ([], entities)) ∧
    keepHighDefaultMinLen = 3 := by
  refine ⟨fun h => ?_, fun h => ?_, rfl⟩
  · rw [keepHighConfCall, if_pos h, keepHighLoop_eq_filter]
  · rw [keepHighConfCall, if_neg (by omega)]

/-- Claim C6, witness: the partition at the default minimum length for a
mention of length 4 with one HIGH-confidence entity, and the empty kept
list for a mention of length 2. -/
theorem c6_keep_high_confidence_witness :
    keepHighConfCall 3 "EGFR" [entHighW, entC2a]
      = ([entHighW], [entC2a]) ∧
    keepHighConfCall 3 "ab" [entHighW, entC2a] = ([], [entHighW, entC2a]) := by
  constructor
  · rw [(c6_keep_high_confidence_partition 3 "EGFR" [entHighW, entC2a]).1 (by decide)]
    decide
  · exact (c6_keep_high_confidence_partition 3 "ab" [entHighW, entC2a]).2.1 (by decide)

/-- Claim C8: `EmbeddingIndex.add` raises the ValueError on a row-count
mismatch, leaving the state untouched; on matching counts the first call
installs the embeddings as the index with the metadata, and later calls
append the embeddings and concatenate the metadata. -/
theorem c8_embedding_add_spec (s : EmbeddingIndexState)
    (embeddings : List (List ℚ)) (metadata : List (List String)) :
    (embeddings.length ≠ metadata.length →
      tensorEmbeddingAdd s embeddings metadata
        = (Except.error "embeddings length not equal to metadata length", s)) ∧
    (embeddings.length = metadata.length → s.index = none →
      tensorEmbeddingAdd s embeddings metadata
        = (Except.ok (), { index := some embeddings, metadata := metadata })) ∧
    (∀ idx, embeddings.length = metadata.length → s.index = some idx →
      tensorEmbeddingAdd s embeddings metadata
        = (Except.ok (),
           { index := some (idx ++ embeddings), metadata := s.metadata ++ metadata })) := by
  refine ⟨fun h => ?_, fun h hidx => ?_, fun idx h hidx => ?_⟩
  · rw [tensorEmbeddingAdd, if_pos h]
  · rw [tensorEmbeddingAdd, if_neg (by omega), hidx]
  · rw [tensorEmbeddingAdd, if_neg (by omega), hidx]

/-- Claim C8, witness: the three branches of `add` at concrete states. -/
theorem c8_embedding_add_witness :
    tensorEmbeddingAdd ⟨none, []⟩ [[1]] []
      = (Except.error "embeddings length not equal to metadata length", ⟨none, []⟩) ∧
    tensorEmbeddingAdd ⟨none, []⟩ [[1]] [["r"]]
      = (Except.ok (), ⟨some [[1]], [["r"]]⟩) ∧
    tensorEmbeddingAdd ⟨some [[2]], [["a"]]⟩ [[1]] [["r"]]
      = (Except.ok (), ⟨some [[2], [1]], [["a"], ["r"]]⟩) :=
  ⟨(c8_embedding_add_spec ⟨none, []⟩ [[1]] []).1 (by decide),
   (c8_embedding_add_spec ⟨none, []⟩ [[1]] [["r"]]).2.1 (by decide) rfl,
   (c8_embedding_add_spec ⟨some [[2]], [["a"]]⟩ [[1]] [["r"]]).2.2 [[2]] (by decide) rfl⟩

/-- Claim C10: the kept/still-ambiguous pair of
`TfIdfGlobalDisambiguationStrategy.__call__` is not always a partition of
the input.  With a non-empty entity list whose hits are all LOW confidence
the synonym corpus is empty (LOW hits are skipped by
`collect_all_syns_from_ents`) and both outputs are empty; with a non-empty
entity list whose every scored synonym is above the threshold but maps to
the incompatible set {CHEMBL, MONDO}, the loop exhausts the corpus and
both outputs are again empty. -/
theorem c10_both_outputs_can_be_empty :
    ([entC10low] ≠ ([] : List Entity)) ∧
    (∀ h ∈ entC10low.hits, h.confidence = LinkRanks.low) ∧
    collectAllSynsFromEnts exCfgC2 [entC10low] = [] ∧
    tfIdfGlobalCall exCfgC2 "q" [entC10low] = ([], []) ∧
    ([entC10m] ≠ ([] : List Entity)) ∧
    (∀ p ∈ tfIdfCorpusScorer (exCfgC10.dot "q")
        ((collectAllSynsFromEnts exCfgC10 [entC10m]).dedup),
      globalTfIdfThreshold ≤ p.2 ∧
        kbsAreCompatible (exCfgC10.getKbsForSynGlobal p.1) = false) ∧
    tfIdfGlobalCall exCfgC10 "q" [entC10m] = ([], []) := by
  refine ⟨by decide, by decide, by decide, by decide, by decide, by decide, by decide⟩

/-- Updating the heap cell at one address leaves every other address
unchanged. -/
theorem setMetaAt_getD_ne :
    ∀ (l : List Mapping) (a b : Nat) (md : List (String × String)) (dm : Mapping),
      a ≠ b → (setMetaAt l a md).getD b dm = l.getD b dm := by
  intro l
  induction l with
  | nil => intro a b md dm _; cases a <;> rfl
  | cons m rest ih =>
    intro a b md dm hab
    cases a with
    | zero =>
      cases b with
      | zero => exact absurd rfl hab
      | succ b => simp [setMetaAt, List.getD_cons_succ]
    | succ a =>
      cases b with
      | zero => simp [setMetaAt, List.getD_cons_zero]
      | succ b =>
        simp only [setMetaAt, List.getD_cons_succ]
        exact ih a b md dm (by omega)

/-- Fresh addresses of consecutive entities never collide. -/
theorem freshAddrs_ne {base n i j p q : Nat} (hp : p < n) (hq : q < n) (hij : i ≠ j) :
    base + i * n + p ≠ base + j * n + q := by
  rcases Nat.lt_or_ge i j with h | h
  · have h2 : (i + 1) * n ≤ j * n := Nat.mul_le_mul_right n (by omega)
    rw [Nat.add_mul] at h2
    omega
  · have h3 : j < i := by omega
    have h2 : (j + 1) * n ≤ i * n := Nat.mul_le_mul_right n (by omega)
    rw [Nat.add_mul] at h2
    omega

/-- Shifting the base of a fresh-address block by one copy of the mappings
advances the entity index by one. -/
theorem freshAddrs_shift (base n k : Nat) :
    freshAddrs (base + n) n k = freshAddrs base n (k + 1) := by
  unfold freshAddrs
  have h : (fun q => base + n + k * n + q) = (fun q => base + (k + 1) * n + q) := by
    funext q
    ring
  rw [h]

/-- The k-th entity produced by the attach loop holds its original
addresses followed by its own block of fresh addresses. -/
theorem attachLoop_addrs (ms : List Mapping) :
    ∀ (ents : List HeapEntity) (heap : List Mapping) (k : Nat), k < ents.length →
      ((attachLoop heap ms ents).2.getD k ⟨[]⟩).addrs
        = (ents.getD k ⟨[]⟩).addrs ++ freshAddrs heap.length ms.length k := by
  intro ents
  induction ents with
  | nil => intro heap k hk; simp at hk
  | cons e rest ih =>
    intro heap k hk
    cases k with
    | zero =>
      simp only [attachLoop, List.getD_cons_zero]
      congr 1
      unfold freshAddrs
      have h : (fun q => heap.length + 0 * ms.length + q)
          = (fun k => heap.length + k) := by
        funext q
        ring
      rw [h]
    | succ k =>
      simp only [attachLoop, List.getD_cons_succ]
      rw [ih (heap ++ ms) k (by simpa using hk), List.length_append, freshAddrs_shift]

/-- Claim C7: after the deep-copy attach loop, the fresh mapping copies of
two distinct entities live at disjoint heap addresses, so overwriting the
additional metadata of a mapping attached to one entity leaves every
mapping attached to the other entity unchanged. -/
theorem c7_deepcopied_mappings_independent (heap ms : List Mapping)
    (ents : List HeapEntity) (i j : Nat)
    (hi : i < ents.length) (hj : j < ents.length) (hij : i ≠ j)
    (a b : Nat) (ha : a ∈ freshAddrs heap.length ms.length i)
    (hb : b ∈ freshAddrs heap.length ms.length j)
    (md : List (String × String)) (dm : Mapping) :
    a ∈ ((attachLoop heap ms ents).2.getD i ⟨[]⟩).addrs ∧
    b ∈ ((attachLoop heap ms ents).2.getD j ⟨[]⟩).addrs ∧
    a ≠ b ∧
    (setMetaAt (attachLoop heap ms ents).1 a md).getD b dm
      = (attachLoop heap ms ents).1.getD b dm := by
  have ha2 := ha
  have hb2 := hb
  simp only [freshAddrs, List.mem_map, List.mem_range] at ha2 hb2
  obtain ⟨p, hp, hpa⟩ := ha2
  obtain ⟨q, hq, hqb⟩ := hb2
  have hne : a ≠ b := by
    rw [← hpa, ← hqb]
    exact freshAddrs_ne hp hq hij
  refine ⟨?_, ?_, hne, setMetaAt_getD_ne _ a b md dm hne⟩
  · rw [attachLoop_addrs ms ents heap i hi]
    exact List.mem_append_right _ ha
  · rw [attachLoop_addrs ms ents heap j hj]
    exact List.mem_append_right _ hb

/-- Claim C7, witness: two entities, one created mapping; the copy of the
first entity lives at address 0, the copy of the second at address 1, and
rewriting the metadata at address 0 leaves address 1 untouched. -/
theorem c7_deepcopied_mappings_witness :
    (0 : Nat) ∈ ((attachLoop [] [mapW] [⟨[]⟩, ⟨[]⟩]).2.getD 0 ⟨[]⟩).addrs ∧
    (1 : Nat) ∈ ((attachLoop [] [mapW] [⟨[]⟩, ⟨[]⟩]).2.getD 1 ⟨[]⟩).addrs ∧
    (0 : Nat) ≠ 1 ∧
    (setMetaAt (attachLoop [] [mapW] [⟨[]⟩, ⟨[]⟩]).1 0 [("k", "v")]).getD 1 mapW
      = (attachLoop [] [mapW] [⟨[]⟩, ⟨[]⟩]).1.getD 1 mapW :=
  c7_deepcopied_mappings_independent [] [mapW] [⟨[]⟩, ⟨[]⟩] 0 1
    (by decide) (by decide) (by decide) 0 1 (by decide) (by decide) [("k", "v")] mapW

/-- The candidate scan of the TfIdf knowledge-base strategy stops at its
first success, so it emits at most one triple. -/
theorem scanSyns_length_le_one (resolve : String → Option SynData)
    (pairs : List (String × Hit)) :
    ∀ l : List (String × ℤ), (scanSyns resolve pairs l).length ≤ 1 := by
  intro l
  induction l with
  | nil => simp [scanSyns]
  | cons x rest ih =>
    obtain ⟨syn, sc⟩ := x
    cases hr : resolve syn with
    | none => simpa [scanSyns, hr] using ih
    | some sd =>
      cases hl : hitLookup pairs syn with
      | nil => simp [scanSyns, hr, hl]
      | cons h hs => simp [scanSyns, hr, hl]

/-- Every hit emitted by the candidate scan comes from the lookup table
built for this source's corpus. -/
theorem scanSyns_hit_mem (resolve : String → Option SynData)
    (pairs : List (String × Hit)) :
    ∀ (l : List (String × ℤ)) (t : Hit × SynData × LinkRanks),
      t ∈ scanSyns resolve pairs l → t.1 ∈ pairs.map Prod.snd := by
  intro l
  induction l with
  | nil => intro t ht; simp [scanSyns] at ht
  | cons x rest ih =>
    obtain ⟨syn, sc⟩ := x
    intro t ht
    cases hr : resolve syn with
    | none => exact ih t (by simpa [scanSyns, hr] using ht)
    | some sd =>
      cases hl : hitLookup pairs syn with
      | nil => simp [scanSyns, hr, hl] at ht
      | cons h hs =>
        have hteq : t = (h, sd, LinkRanks.medium) := by
          simpa [scanSyns, hr, hl] using ht
        subst hteq
        have hh : h ∈ hitLookup pairs syn := by
          rw [hl]
          exact List.mem_cons_self _ _
        unfold hitLookup at hh
        obtain ⟨pr, hpr, hpr2⟩ := List.mem_map.mp hh
        exact List.mem_map.mpr ⟨pr, (List.mem_filter.mp hpr).1, hpr2⟩

/-- Every hit appearing in a source's corpus lookup comes from the hit
list the corpus was built from. -/
theorem corpusPairs_snd_mem (cfg : DisambConfig) (hits : List Hit) (src : String) :
    ∀ pr ∈ corpusPairs cfg hits src, pr.2 ∈ hits := by
  intro pr hpr
  unfold corpusPairs ambigIdsThisSource at hpr
  obtain ⟨ih, hih, hpr2⟩ := List.mem_flatMap.mp hpr
  obtain ⟨syn, hsyn, heq⟩ := List.mem_map.mp hpr2
  have hih2 := List.dedup_subset _ hih
  obtain ⟨hit, hhit, hmem⟩ := List.mem_flatMap.mp hih2
  obtain ⟨sd, hsd, hmem2⟩ := List.mem_flatMap.mp hmem
  obtain ⟨idx, hidx, heq2⟩ := List.mem_map.mp hmem2
  subst heq
  subst heq2
  simpa using hhit

/-- Every triple the per-source scan emits carries a hit of that source. -/
theorem tfIdfKbScanSource_source (cfg : DisambConfig) (query entNorm : String)
    (ambigHits : List Hit) (src : String) :
    ∀ t ∈ tfIdfKbScanSource cfg query entNorm ambigHits src, t.1.source = src := by
  intro t ht
  simp only [tfIdfKbScanSource] at ht
  have h1 := scanSyns_hit_mem _ _ _ t ht
  obtain ⟨pr, hpr, hpr2⟩ := List.mem_map.mp h1
  have h2 := corpusPairs_snd_mem cfg _ src pr hpr
  have h3 := (List.mem_filter.mp h2).2
  rw [← hpr2]
  simpa using h3

/-- The per-source scan emits at most one triple. -/
theorem tfIdfKbScanSource_length_le_one (cfg : DisambConfig)
    (query entNorm : String) (ambigHits : List Hit) (src : String) :
    (tfIdfKbScanSource cfg query entNorm ambigHits src).length ≤ 1 := by
  simp only [tfIdfKbScanSource]
  exact scanSyns_length_le_one _ _ _

/-- Counting helper: a flat map over distinct keys where only the
distinguished key can contribute elements satisfying the predicate, and
contributes at most one, has at most one matching element in total. -/
theorem length_filter_flatMap_le_one {α β : Type} (p : β → Bool) (f : α → List β)
    (s : α) :
    ∀ l : List α, l.Nodup →
      (∀ a ∈ l, a ≠ s → ∀ b ∈ f a, p b = false) →
      ((f s).filter p).length ≤ 1 →
      ((l.flatMap f).filter p).length ≤ 1 := by
  intro l
  induction l with
  | nil => intro _ _ _; simp
  | cons a rest ih =>
    intro hnd hall hs
    rw [List.flatMap_cons, List.filter_append, List.length_append]
    by_cases hca : a = s
    · subst hca
      have hrest : (rest.flatMap f).filter p = [] := by
        rw [List.filter_eq_nil_iff]
        intro b hb
        obtain ⟨c, hc, hbc⟩ := List.mem_flatMap.mp hb
        have hcs : c ≠ a := by
          intro h
          exact (List.nodup_cons.mp hnd).1 (h ▸ hc)
        simp [hall c (List.mem_cons_of_mem _ hc) hcs b hbc]
      rw [hrest]
      simpa using hs
    · have h1 : (f a).filter p = [] := by
        rw [List.filter_eq_nil_iff]
        intro b hb
        simp [hall a (List.mem_cons_self _ _) hca b hb]
      rw [h1]
      simpa using ih (List.nodup_cons.mp hnd).2
        (fun x hx => hall x (List.mem_cons_of_mem _ hx)) hs

/-- Claim C4: `TfIdfKnowledgeBaseDisambiguationStrategy.__call__` emits at
most one `(Hit, SynonymData, confidence)` triple per knowledge-base
source: each source's scan walks its candidates in descending score order
and stops at the first resolvable synonym, and distinct source groups
contribute hits of distinct sources. -/
theorem c4_at_most_one_triple_per_source (cfg : DisambConfig)
    (query ent_match : String) (entities : List Entity) (src : String) :
    ((tfIdfKbCall cfg query ent_match entities).filter
      (fun t => t.1.source == src)).length ≤ 1 := by
  simp only [tfIdfKbCall]
  refine length_filter_flatMap_le_one _ _ src _ (List.nodup_dedup _) ?_ ?_
  · intro a ha hne t ht
    have hsrc := tfIdfKbScanSource_source cfg query (cfg.normalize ent_match) _ a t ht
    rw [hsrc]
    exact beq_eq_false_iff_ne.mpr hne
  · exact le_trans (List.length_filter_le _ _)
      (tfIdfKbScanSource_length_le_one cfg query (cfg.normalize ent_match) _ src)

/-- Claim C9: the disambiguation pipeline is a deterministic function of
its input: two documents with identical entity lists (hence identical
hits) processed by the same Disambiguator (the same registry and
vectorizer collaborators) receive identical entity annotations — in
particular identical mapping sets.  The embedded pipeline reads the
document only through `get_entities`, so the result does not depend on
anything else; Python set iteration, which is reproducible for identical
inputs within a process, is modelled by a fixed deterministic order. -/
theorem c9_run_deterministic_on_entities (cfg : DisambConfig) (d1 d2 : Document)
    (h : d1.entities = d2.entities) :
    (runDisamb cfg d1).entities = (runDisamb cfg d2).entities := by
  simp [runDisamb, h]

/-- Claim C9, witness: two documents with different section text but the
same entity list are annotated identically. -/
theorem c9_run_deterministic_witness :
    (runDisamb exCfgC2 ⟨["section one"], [entC2a]⟩).entities
      = (runDisamb exCfgC2 ⟨["section two"], [entC2a]⟩).entities :=
  c9_run_deterministic_on_entities exCfgC2 ⟨["section one"], [entC2a]⟩
    ⟨["section two"], [entC2a]⟩ rfl

end Kazu
